import Mathlib

/-!
Verification of the SkyENet session layer (gtenet).

This file gives a shallow embedding, in Lean 4, of the session-layer logic of
the repository: the `ENetBase` / `Server` / `Client` wrapper classes and the
`RawPacketBuilder` from the JS sources (both the CJS and the ESM variant of
`server.js`), and the global engine init/deinit reference count from
`src/enet_addon.cpp`.  Each definition mirrors one function of the source; the
theorems at the end settle the spec's claims about them.

Modelling conventions:
- Peer handles (JS bigints holding an `ENetPeer*`) are `Nat`; the native layer
  rejects the null handle `0` by throwing, exactly as `JsValueToPeer` does.
- A JS `Map` is an insertion-ordered association list `List (PeerId × PeerRecord)`.
- Everything observable through the event bus is collected in an append-only
  `log : List Emitted`; `emit` never throws (it catches callback errors), so
  emission is pure log appending.
- The external ENet engine (out of scope per the spec) is abstracted to the
  set of peers currently in connected state; `enet_peer_send` on a peer that
  is not in connected state returns a negative status, per the engine contract
  the spec assumes.  Whether the native addon *throws* into JS or merely
  returns that status is taken from `enet_addon.cpp`, which is in the repo.
-/

namespace SkyENet

/-- Peer handles are the bigint values the native addon derives from
`ENetPeer*` pointers.  `0` is the null handle, which `JsValueToPeer` rejects. -/
abbrev PeerId := Nat

/-- The per-peer record the JS wrappers keep in `this.peers`:
`{ connected, address?, port? }`. -/
structure PeerRecord where
  connected : Bool
  address : Option String := none
  port : Option Nat := none
deriving DecidableEq, Repr

/-- `this.peers.has(k)` on the insertion-ordered map. -/
def mapHas (m : List (PeerId × PeerRecord)) (k : PeerId) : Bool :=
  m.any (fun e => e.1 == k)

/-- `this.peers.get(k)` on the insertion-ordered map (first binding wins,
as JS `Map` keys are unique). -/
def mapGet (m : List (PeerId × PeerRecord)) (k : PeerId) : Option PeerRecord :=
  (m.find? (fun e => e.1 == k)).map (fun e => e.2)

/-- `this.peers.get(k).connected = b`: in-place mutation of the stored record,
preserving the key order of the map. -/
def mapUpdateConnected (m : List (PeerId × PeerRecord)) (k : PeerId) (b : Bool) :
    List (PeerId × PeerRecord) :=
  m.map (fun e => if e.1 = k then (e.1, { e.2 with connected := b }) else e)

/-- `this.peers.set(k, r)` for a key not yet present: JS `Map.set` appends the
new binding in insertion order. -/
def mapInsertNew (m : List (PeerId × PeerRecord)) (k : PeerId) (r : PeerRecord) :
    List (PeerId × PeerRecord) :=
  m ++ [(k, r)]

/-- `this.peers.delete(k)`. -/
def mapDelete (m : List (PeerId × PeerRecord)) (k : PeerId) :
    List (PeerId × PeerRecord) :=
  m.filter (fun e => e.1 ≠ k)

/-- The event objects the native `HostService` hands to JS (`enet_addon.cpp`,
`HostService`): tagged by the `type` string, with `peer` as a bigint, the
disconnect `data`, and the receive payload copied into a Buffer. -/
inductive NativeEvent where
  | connect (peer : PeerId)
  | disconnect (peer : PeerId) (data : Nat)
  | receive (peer : PeerId) (channelID : Nat) (data : List Nat)
  | unknown
deriving DecidableEq, Repr

/-- One publication on the event bus.  `emit` forwards the event object
unchanged to every subscriber of the kind, so a publication is the kind tag
plus the forwarded object (or the error message for `error` publications). -/
inductive Emitted where
  | connectEv (e : NativeEvent)
  | disconnectEv (e : NativeEvent)
  | receiveEv (e : NativeEvent)
  | errorEv (msg : String)
deriving DecidableEq, Repr

/-- The observable state of one `ENetBase` instance: the peer registry
`this.peers` and the sequence of event-bus publications made so far. -/
structure BaseState where
  peers : List (PeerId × PeerRecord)
  log : List Emitted
deriving DecidableEq, Repr

/-- `this.emit('error', new Error(msg))` as seen through the log. -/
def emitError (s : BaseState) (msg : String) : BaseState :=
  { s with log := s.log ++ [.errorEv msg] }

/-- `ENetBase.handleEvent` (identical in the CJS and ESM variants):
- `connect`: if registered, set `connected = true` in place, else insert
  `{ connected: true }`; re-emit the event.
- `disconnect`: if registered, clear `connected` and delete the record (net
  effect: deletion); re-emit the event unconditionally.
- `receive`: re-emit only.
- anything else: emit an `Unknown event type` error.
The surrounding try/catch never fires: map operations and `emit` do not throw. -/
def handleEvent (s : BaseState) (ev : NativeEvent) : BaseState :=
  match ev with
  | .connect p =>
      let peers :=
        if mapHas s.peers p then mapUpdateConnected s.peers p true
        else mapInsertNew s.peers p { connected := true }
      { peers := peers, log := s.log ++ [.connectEv ev] }
  | .disconnect p _ =>
      let peers := if mapHas s.peers p then mapDelete s.peers p else s.peers
      { peers := peers, log := s.log ++ [.disconnectEv ev] }
  | .receive _ _ _ =>
      { s with log := s.log ++ [.receiveEv ev] }
  | .unknown =>
      { s with log := s.log ++ [.errorEv "Unknown event type: unknown"] }

/-- Abstraction of the external ENet engine host (spec section 6): the set of
peers currently in connected state on this host.  `enet_peer_disconnect`,
`enet_peer_disconnect_now` and `enet_peer_disconnect_later` all take the peer
out of connected state for the purpose of `enet_peer_send` admission. -/
structure Transport where
  connected : List PeerId
deriving DecidableEq, Repr

/-- Outcome of a call into the native addon as seen from JS: either a thrown
JS exception, or a returned status code. -/
inductive NativeResult where
  | thrown (msg : String)
  | status (n : Int)
deriving DecidableEq, Repr

/-- `ENetWrapper::SendPacket` / `SendRawPacket` (`enet_addon.cpp`): throws into
JS only for an invalid (null) peer handle or malformed arguments; otherwise it
returns the `enet_peer_send` status as a plain number — a negative status for
a peer that is not in connected state is returned, not thrown. -/
def nativeSendPacket (t : Transport) (peer : PeerId) : NativeResult :=
  if peer = 0 then .thrown "Invalid peer id"
  else if peer ∈ t.connected then .status 0
  else .status (-1)

/-- `ENetWrapper::Disconnect` / `DisconnectNow` / `DisconnectLater`
(`enet_addon.cpp`): throws only for the null handle; otherwise issues the
engine disconnect, after which the peer is no longer in connected state. -/
def nativeDisconnect (t : Transport) (peer : PeerId) : Option String × Transport :=
  if peer = 0 then (some "Invalid peer id", t)
  else (none, { connected := t.connected.filter (fun q => q ≠ peer) })

/-- The three JS disconnect variants; they differ only in which native
disconnect primitive they call, which this abstraction does not distinguish. -/
inductive DisconnectKind where
  | graceful
  | now
  | later
deriving DecidableEq, Repr

/-- `ENetBase.send`: wraps the native send in try/catch; a thrown native error
is published on the bus and turned into `-1`, a returned status (negative or
not) is passed through with no publication. -/
def baseSend (s : BaseState) (t : Transport) (peer : PeerId) : BaseState × Int :=
  match nativeSendPacket t peer with
  | .thrown msg => (emitError s msg, -1)
  | .status n => (s, n)

/-- `ENetBase.sendRawPacket`: identical control flow to `send` (the raw
variant differs only in payload/flag handling, which does not change the
throw-versus-status outcome this model tracks). -/
def baseSendRawPacket (s : BaseState) (t : Transport) (peer : PeerId) :
    BaseState × Int :=
  match nativeSendPacket t peer with
  | .thrown msg => (emitError s msg, -1)
  | .status n => (s, n)

/-- `ENetBase.disconnect` / `disconnectNow` / `disconnectLater`: calls the
native disconnect and then synchronously deletes the peer record.  If the
native call throws, the catch block publishes the error and the deletion is
skipped. -/
def baseDisconnect (_k : DisconnectKind) (s : BaseState) (t : Transport)
    (peer : PeerId) : BaseState × Transport :=
  match nativeDisconnect t peer with
  | (some msg, t') => (emitError s msg, t')
  | (none, t') => ({ s with peers := mapDelete s.peers peer }, t')

/-- `Server.broadcast`, inner loop: iterate the registry in insertion order;
for each record with `connected` set, call `super.send`.  Returns the final
state together with the list of peers for which a send attempt was made, in
iteration order.  (`super.send` never throws, so the per-peer try/catch in
`broadcast` is dead.) -/
def broadcastGo (t : Transport) :
    List (PeerId × PeerRecord) → BaseState → BaseState × List PeerId
  | [], s => (s, [])
  | (p, info) :: rest, s =>
      if info.connected then
        let s' := (baseSend s t p).1
        let r := broadcastGo t rest s'
        (r.1, p :: r.2)
      else
        broadcastGo t rest s

/-- `Server.broadcast(channelId, data, reliable)`: the registry iteration. -/
def broadcast (s : BaseState) (t : Transport) : BaseState × List PeerId :=
  broadcastGo t s.peers s

/-- The observable state of a `Client` instance: the inherited base state plus
`this.serverPeer` (a bigint or `null`; the JS truthiness test `if
(this.serverPeer)` also treats the bigint `0n` as unset). -/
structure ClientState where
  base : BaseState
  serverPeer : Option PeerId
deriving DecidableEq, Repr

/-- JS truthiness of `this.serverPeer`: `null` and `0n` are falsy. -/
def serverPeerTruthy : Option PeerId → Bool
  | none => false
  | some p => p != 0

/-- `Client.send(channelId, data, reliable)`: targets `serverPeer`; when it is
unset (`null`, or the falsy bigint `0n`), publishes a
`Not connected to server` error and returns `-1`. -/
def clientSend (s : ClientState) (t : Transport) : ClientState × Int :=
  match s.serverPeer with
  | some p =>
      if p = 0 then
        ({ s with base := emitError s.base "Not connected to server" }, -1)
      else
        let r := baseSend s.base t p
        ({ s with base := r.1 }, r.2)
  | none =>
      ({ s with base := emitError s.base "Not connected to server" }, -1)

/-- `Client.sendRawPacket(channelId, data, flags)`: same default-target rule. -/
def clientSendRawPacket (s : ClientState) (t : Transport) : ClientState × Int :=
  match s.serverPeer with
  | some p =>
      if p = 0 then
        ({ s with base := emitError s.base "Not connected to server" }, -1)
      else
        let r := baseSendRawPacket s.base t p
        ({ s with base := r.1 }, r.2)
  | none =>
      ({ s with base := emitError s.base "Not connected to server" }, -1)

/-- `Client.disconnect` / `disconnectNow` / `disconnectLater`: when
`serverPeer` is truthy, delegates to the base variant and clears `serverPeer`;
when it is unset, the `if` has no `else` — the call does nothing at all. -/
def clientDisconnect (k : DisconnectKind) (s : ClientState) (t : Transport) :
    ClientState × Transport :=
  match s.serverPeer with
  | some p =>
      if p = 0 then (s, t)
      else
        let r := baseDisconnect k s.base t p
        ({ base := r.1, serverPeer := none }, r.2)
  | none => (s, t)

/-- A subscriber callback on the event bus.  `named n` is a function the
application (or the `connect` promise) holds a reference to; `onceWrap c` is
the fresh wrapper closure `ENetBase.once` builds around `c` — it is a distinct
function object, never identical (by reference) to `c` itself or to any
previously registered callback. -/
inductive Cb where
  | named (n : Nat)
  | onceWrap (c : Cb)
deriving DecidableEq, Repr

/-- `ENetBase.on(eventType, cb)`: pushes the callback onto the kind's list. -/
def cbOn (l : List Cb) (c : Cb) : List Cb :=
  l ++ [c]

/-- `ENetBase.off(eventType, cb)`: `indexOf` the exact function reference and
splice it out — removes the first occurrence of `c` itself, nothing else. -/
def cbOff : List Cb → Cb → List Cb
  | [], _ => []
  | x :: xs, c => if x = c then xs else x :: cbOff xs c

/-- `ENetBase.once(eventType, cb)`: registers the fresh wrapper closure, not
`cb` itself: `this.on(eventType, wrapped)`. -/
def cbOnce (l : List Cb) (c : Cb) : List Cb :=
  cbOn l (.onceWrap c)

/-- The `connect` subscriber list after the timer-expiry arm of
`Client.connect({timeoutMs})` has run: the promise first does
`this.once('connect', onConnected)`, and the timer callback then does
`this.off('connect', onConnected)` (`server.js`, the `setTimeout` body). -/
def connectTimeoutSubscribers (l : List Cb) (onConnected : Cb) : List Cb :=
  cbOff (cbOnce l onConnected) onConnected

/-- The process-wide engine init state of `enet_addon.cpp`: the atomic
`g_enetInitCount` together with which wrapper instances currently have their
`initialized` flag set. -/
structure EngineGlobal where
  count : Nat
  sessions : List Nat
deriving DecidableEq, Repr

/-- The state before any wrapper instance has acquired a slot. -/
def engineInitial : EngineGlobal :=
  { count := 0, sessions := [] }

/-- One call into the addon's lifecycle methods.  `init sid ok` is
`ENetWrapper::Initialize` on instance `sid`, with `ok` the outcome
`enet_initialize()` *would* report if it is actually invoked; `deinit sid` is
`ENetWrapper::Deinitialize` (the destructor runs the same release logic). -/
inductive EngineOp where
  | init (sid : Nat) (engineOk : Bool)
  | deinit (sid : Nat)
deriving DecidableEq, Repr

/-- Invocations of the true engine entry points. -/
inductive EngineCall where
  | trueInit
  | trueDeinit
deriving DecidableEq, Repr

/-- One step of the addon's reference-counted lifecycle
(`ENetWrapper::Initialize` / `Deinitialize`):
- `Initialize` on an already-initialized instance returns early.
- Otherwise `fetch_add`; if the previous count was `0`, `enet_initialize()`
  runs; on its failure the count is rolled back and the instance stays
  uninitialized.
- `Deinitialize` on an initialized instance clears the flag and `fetch_sub`s;
  if the previous count was `1`, `enet_deinitialize()` runs.
Returns the new global state and the true engine calls made by the step. -/
def engineStep (g : EngineGlobal) (op : EngineOp) : EngineGlobal × List EngineCall :=
  match op with
  | .init sid ok =>
      if sid ∈ g.sessions then (g, [])
      else if g.count = 0 then
        if ok then
          ({ count := 1, sessions := sid :: g.sessions }, [.trueInit])
        else
          (g, [.trueInit])
      else
        ({ count := g.count + 1, sessions := sid :: g.sessions }, [])
  | .deinit sid =>
      if sid ∈ g.sessions then
        if g.count = 1 then
          ({ count := 0, sessions := g.sessions.erase sid }, [.trueDeinit])
        else
          ({ count := g.count - 1, sessions := g.sessions.erase sid }, [])
      else (g, [])

/-- Number of `enet_deinitialize()` invocations in a list of true engine
calls. -/
def countTrueDeinits : List EngineCall → Nat
  | [] => 0
  | .trueDeinit :: rest => countTrueDeinits rest + 1
  | .trueInit :: rest => countTrueDeinits rest

/-- A whole run of lifecycle calls, collecting every true engine call. -/
def engineRun (g : EngineGlobal) : List EngineOp → EngineGlobal × List EngineCall
  | [] => (g, [])
  | op :: rest =>
      let r := engineStep g op
      let r' := engineRun r.1 rest
      (r'.1, r.2 ++ r'.2)

/-- The trace of reference-count values after each step of a run. -/
def engineCounts (g : EngineGlobal) : List EngineOp → List Nat
  | [] => []
  | op :: rest =>
      let g' := (engineStep g op).1
      g'.count :: engineCounts g' rest

/-- How many times a count trace returns to zero (a step whose new value is
`0` while the previous value was nonzero), starting from previous value
`prev`. -/
def countZeroReturns : Nat → List Nat → Nat
  | _, [] => 0
  | prev, c :: rest =>
      (if prev ≠ 0 ∧ c = 0 then 1 else 0) + countZeroReturns c rest

/-- The interval update in `ENetBase.listen`: reset to the base interval when
`service` produced an event, else double, capped at the maximum. -/
def nextInterval (poll maxI c : Nat) (ev : Bool) : Nat :=
  if ev then poll else min (c * 2) maxI

/-- The successive values `currentInterval` takes, starting from `c`, over a
run of the `listen` loop whose `service` calls produce events per `evs`
(`true` = an event was returned).  The head is the value used by the first
iteration; each later entry is the value after that iteration's update, which
is both the sleep length and the next iteration's `service` timeout. -/
def intervalTrace (poll maxI : Nat) : List Bool → Nat → List Nat
  | [], c => [c]
  | ev :: rest, c => c :: intervalTrace poll maxI rest (nextInterval poll maxI c ev)

/-- All values `currentInterval` takes in a run of `ENetBase.listen`:
`currentInterval` starts at `pollIntervalMs`. -/
def pollIntervals (poll maxI : Nat) (evs : List Bool) : List Nat :=
  intervalTrace poll maxI evs poll

/-- The session config fields consulted by `setupHost` (all booleans; the
constructors coerce the user options with a double negation). -/
structure HostConfig where
  compression : Bool
  checksum : Bool
  usingNewPacket : Bool
  usingNewPacketForServer : Bool
deriving DecidableEq, Repr

/-- A call into the native layer made during host creation, in order. -/
inductive HostCall where
  | createHost
  | setCompression (enabled : Bool)
  | setChecksum (enabled : Bool)
  | setNewPacket (enabled : Bool) (isServer : Bool)
  | markReady
deriving DecidableEq, Repr

/-- `ENetBase.setupHost` in the CJS variant of `server.js`: passes the config
booleans through, and calls `setNewPacket(true, isServer)` exactly when the
config requests new-packet mode. -/
def setupHostCJS (cfg : HostConfig) (isServer : Bool) : List HostCall :=
  [.setCompression cfg.compression, .setChecksum cfg.checksum]
    ++ (if cfg.usingNewPacket || cfg.usingNewPacketForServer then
          [.setNewPacket true isServer]
        else [])

/-- `ENetBase.setupHost` in the ESM variant of `server.js`: calls
`setCompression(true)` and `setChecksum(true)` unconditionally, ignoring the
config booleans; the new-packet handling matches the CJS variant. -/
def setupHostESM (cfg : HostConfig) (isServer : Bool) : List HostCall :=
  [.setCompression true, .setChecksum true]
    ++ (if cfg.usingNewPacket || cfg.usingNewPacketForServer then
          [.setNewPacket true isServer]
        else [])

/-- The native-call order of a successful `Server.createServer` (CJS): create
the bound host, then `setupHost`, then `this.hostCreated = true` (the ready
mark).  A successful `Client.createClient` has the same shape with
`isServer = false`. -/
def createServerCalls (cfg : HostConfig) : List HostCall :=
  [.createHost] ++ setupHostCJS cfg true ++ [.markReady]

/-- `createClient` call order (CJS variant). -/
def createClientCalls (cfg : HostConfig) : List HostCall :=
  [.createHost] ++ setupHostCJS cfg false ++ [.markReady]

/-- `RawPacketBuilder` state: the `ArrayBuffer` capacity fixed at
construction, the running cursor `this.offset`, and (as instrumentation for
the bounds claim) the `(start, width)` span of every write performed so far. -/
structure RawPacketBuilder where
  capacity : Nat
  offset : Nat
  writes : List (Nat × Nat)
deriving DecidableEq, Repr

/-- `new RawPacketBuilder(size)` (default size 1024). -/
def mkBuilder (size : Nat) : RawPacketBuilder :=
  { capacity := size, offset := 0, writes := [] }

/-- One write operation of `RawPacketBuilder`.  Numeric payload values do not
affect the cursor or bounds behaviour; `writeString` carries the byte length
of the UTF-8 encoding of its argument and the requested encoding name,
`writeBytes` the length of its byte argument. -/
inductive WriteOp where
  | writeUint8 (value : Nat)
  | writeUint16 (value : Nat) (littleEndian : Bool)
  | writeUint32 (value : Nat) (littleEndian : Bool)
  | writeFloat32 (littleEndian : Bool)
  | writeFloat64 (littleEndian : Bool)
  | writeString (utf8Length : Nat) (encoding : String)
  | writeBytes (length : Nat)
deriving DecidableEq, Repr

/-- The encoded width by which a successful operation advances the cursor. -/
def writeWidth : WriteOp → Nat
  | .writeUint8 _ => 1
  | .writeUint16 _ _ => 2
  | .writeUint32 _ _ => 4
  | .writeFloat32 _ => 4
  | .writeFloat64 _ => 8
  | .writeString n _ => n
  | .writeBytes n => n

/-- The bounded write every `RawPacketBuilder` operation performs: the
`DataView` setters throw a `RangeError` exactly when
`offset + width > byteLength`, before mutating anything, and `Uint8Array.set`
(used by `writeString` / `writeBytes`) validates the source length against the
remaining room before copying, with the same bound.  On success the bytes land
at `[offset, offset + width)` and the cursor advances by `width`; the buffer
is never reallocated. -/
def checkedAdvance (b : RawPacketBuilder) (w : Nat) :
    Except String RawPacketBuilder :=
  if b.offset + w > b.capacity then .error "RangeError"
  else .ok { b with offset := b.offset + w,
                    writes := b.writes ++ [(b.offset, w)] }

/-- One `RawPacketBuilder` write: `writeString` first rejects any encoding
other than `utf8`; every operation then performs the bounds-checked write of
its encoded width. -/
def applyWrite (b : RawPacketBuilder) (op : WriteOp) :
    Except String RawPacketBuilder :=
  match op with
  | .writeString _ enc =>
      if enc ≠ "utf8" then
        .error "RawPacketBuilder.writeString supports only utf8 encoding"
      else checkedAdvance b (writeWidth op)
  | _ => checkedAdvance b (writeWidth op)

/-- A fluent chain of writes; a thrown error aborts the chain, as a JS
exception would propagate out of the expression. -/
def runBuilder (b : RawPacketBuilder) : List WriteOp → Except String RawPacketBuilder
  | [] => .ok b
  | op :: rest =>
      match applyWrite b op with
      | .error e => .error e
      | .ok b' => runBuilder b' rest

/-- `reset()`: rewinds the cursor without reallocating. -/
def builderReset (b : RawPacketBuilder) : RawPacketBuilder :=
  { b with offset := 0 }

/-- `size()`: the current cursor offset. -/
def builderSize (b : RawPacketBuilder) : Nat :=
  b.offset

/-! Helper lemmas about the registry map. -/

theorem mapHas_mapDelete (m : List (PeerId × PeerRecord)) (k : PeerId) :
    mapHas (mapDelete m k) k = false := by
  induction m with
  | nil => rfl
  | cons e rest ih =>
      by_cases h : e.1 = k
      · simpa [mapDelete, h] using ih
      · simpa [mapDelete, mapHas, h] using ih

theorem mapGet_cons (e : PeerId × PeerRecord) (m : List (PeerId × PeerRecord))
    (k : PeerId) :
    mapGet (e :: m) k = if e.1 = k then some e.2 else mapGet m k := by
  by_cases h : e.1 = k <;> simp [mapGet, List.find?_cons, h]

theorem mapGet_update_connected (m : List (PeerId × PeerRecord)) (k : PeerId)
    (b : Bool) (h : mapHas m k = true) :
    (mapGet (mapUpdateConnected m k b) k).map PeerRecord.connected = some b := by
  induction m with
  | nil => simp [mapHas] at h
  | cons e rest ih =>
      by_cases he : e.1 = k
      · have hu : mapUpdateConnected (e :: rest) k b
            = (e.1, { e.2 with connected := b }) :: mapUpdateConnected rest k b := by
          simp [mapUpdateConnected, he]
        rw [hu, mapGet_cons]
        simp [he]
      · have hu : mapUpdateConnected (e :: rest) k b
            = e :: mapUpdateConnected rest k b := by
          simp [mapUpdateConnected, he]
        have h' : mapHas rest k = true := by
          simpa [mapHas, he] using h
        rw [hu, mapGet_cons, if_neg he]
        exact ih h'

theorem mapUpdateConnected_keys (m : List (PeerId × PeerRecord)) (k : PeerId)
    (b : Bool) :
    (mapUpdateConnected m k b).map Prod.fst = m.map Prod.fst := by
  induction m with
  | nil => rfl
  | cons e rest ih =>
      by_cases he : e.1 = k
      · simpa [mapUpdateConnected, he] using ih
      · simpa [mapUpdateConnected, he] using ih

theorem mapGet_insertNew (m : List (PeerId × PeerRecord)) (k : PeerId)
    (r : PeerRecord) (h : mapHas m k = false) :
    mapGet (mapInsertNew m k r) k = some r := by
  induction m with
  | nil => simp [mapInsertNew, mapGet, List.find?]
  | cons e rest ih =>
      have he : (e.1 == k) = false := by
        by_cases he' : e.1 = k
        · exfalso
          simp [mapHas, he'] at h
        · simpa using he'
      have h' : mapHas rest k = false := by
        simpa [mapHas, he] using h
      simpa [mapInsertNew, mapGet, List.find?, he] using ih h'

theorem not_mem_filter_ne (l : List PeerId) (p : PeerId) :
    p ∉ l.filter (fun q => q ≠ p) := by
  simp [List.mem_filter]

/-! Theorems settling the claims. -/

/-- Claim C1 (code bug witness): in the timer-expiry arm of
`Client.connect({timeoutMs})`, the call `off('connect', onConnected)` in the
`setTimeout` body removes nothing, because `once('connect', onConnected)`
registered the fresh wrapper closure rather than `onConnected` itself.
Starting from an empty connect subscriber list, the list after the timeout
path still holds the leaked one-shot wrapper, where the claim (and the spec)
require it to be empty. -/
theorem c1_timeout_leaks_once_subscriber :
    connectTimeoutSubscribers [] (Cb.named 0) = [Cb.onceWrap (Cb.named 0)]
    ∧ connectTimeoutSubscribers [] (Cb.named 0) ≠ [] := by
  decide

/-- Claim C2, counterexample to the claim as stated: peer `5` is registered
and engine-connected; after `disconnect(5)` the registry entry is gone and an
immediate `send(5, …)` returns `-1`, but the event log is still empty — no
`NotConnected`-class error is ever published, because the native send merely
returns the negative status instead of throwing. -/
theorem c2_counterexample :
    (baseDisconnect .graceful ⟨[(5, ⟨true, none, none⟩)], []⟩ ⟨[5]⟩ 5).1.peers = []
    ∧ (baseSend (baseDisconnect .graceful ⟨[(5, ⟨true, none, none⟩)], []⟩ ⟨[5]⟩ 5).1
        (baseDisconnect .graceful ⟨[(5, ⟨true, none, none⟩)], []⟩ ⟨[5]⟩ 5).2 5).2 = -1
    ∧ (baseSend (baseDisconnect .graceful ⟨[(5, ⟨true, none, none⟩)], []⟩ ⟨[5]⟩ 5).1
        (baseDisconnect .graceful ⟨[(5, ⟨true, none, none⟩)], []⟩ ⟨[5]⟩ 5).2 5).1.log = [] := by
  decide

/-- Claim C2, amended: for every disconnect variant on a valid (non-null)
peer handle, the peer record is removed from the registry synchronously at
call time, and an immediately subsequent `send` targeting that peer returns a
negative status code; however no error is published by either call — the
event log is untouched. -/
theorem c2_amended_disconnect_then_send (k : DisconnectKind) (s : BaseState)
    (t : Transport) (p : PeerId) (hp : p ≠ 0) :
    mapHas (baseDisconnect k s t p).1.peers p = false
    ∧ (baseDisconnect k s t p).1.log = s.log
    ∧ (baseSend (baseDisconnect k s t p).1 (baseDisconnect k s t p).2 p).2 < 0
    ∧ (baseSend (baseDisconnect k s t p).1 (baseDisconnect k s t p).2 p).1.log
        = s.log := by
  have hd : baseDisconnect k s t p
      = ({ s with peers := mapDelete s.peers p },
         { connected := t.connected.filter (fun q => q ≠ p) }) := by
    simp [baseDisconnect, nativeDisconnect, hp]
  have hsend :
      nativeSendPacket ⟨t.connected.filter (fun q => q ≠ p)⟩ p = .status (-1) := by
    simp [nativeSendPacket, hp, not_mem_filter_ne]
  rw [hd]
  refine ⟨by simp [mapHas_mapDelete], rfl, ?_, ?_⟩
  · unfold baseSend
    rw [hsend]
    simp
  · unfold baseSend
    rw [hsend]

/-- Witness for the amended C2 theorem at a concrete input. -/
theorem c2_amended_witness :
    mapHas (baseDisconnect .now ⟨[(7, ⟨true, none, none⟩)], []⟩ ⟨[7]⟩ 7).1.peers 7
      = false :=
  (c2_amended_disconnect_then_send .now ⟨[(7, ⟨true, none, none⟩)], []⟩ ⟨[7]⟩ 7
    (by decide)).1

/-- Claim C5: `handleEvent` implements the event state machine — a connect
event leaves the peer registered with `connected = true` (updating the record
in place when present, appending a fresh record otherwise) and republishes the
event; a disconnect event leaves the peer absent; a receive event leaves the
registry unchanged and forwards the event (payload included) as-is; an unknown
event is published as an unknown-event-type error with no registry change. -/
theorem c5_service_event_state_machine (s : BaseState) (p : PeerId)
    (d ch : Nat) (data : List Nat) :
    ((mapGet (handleEvent s (.connect p)).peers p).map PeerRecord.connected
        = some true
      ∧ (mapHas s.peers p = true →
          (handleEvent s (.connect p)).peers.map Prod.fst = s.peers.map Prod.fst)
      ∧ (mapHas s.peers p = false →
          (handleEvent s (.connect p)).peers = s.peers ++ [(p, ⟨true, none, none⟩)])
      ∧ (handleEvent s (.connect p)).log = s.log ++ [.connectEv (.connect p)])
    ∧ mapHas (handleEvent s (.disconnect p d)).peers p = false
    ∧ ((handleEvent s (.receive p ch data)).peers = s.peers
      ∧ (handleEvent s (.receive p ch data)).log
          = s.log ++ [.receiveEv (.receive p ch data)])
    ∧ ((handleEvent s .unknown).peers = s.peers
      ∧ (handleEvent s .unknown).log
          = s.log ++ [.errorEv "Unknown event type: unknown"]) := by
  refine ⟨⟨?_, ?_, ?_, ?_⟩, ?_, ⟨rfl, rfl⟩, rfl, rfl⟩
  · by_cases h : mapHas s.peers p = true
    · have hpeers : (handleEvent s (.connect p)).peers
          = mapUpdateConnected s.peers p true := by
        simp [handleEvent, h]
      rw [hpeers]
      exact mapGet_update_connected s.peers p true h
    · have h' : mapHas s.peers p = false := by simpa using h
      have hpeers : (handleEvent s (.connect p)).peers
          = mapInsertNew s.peers p ⟨true, none, none⟩ := by
        simp [handleEvent, h']
      rw [hpeers, mapGet_insertNew s.peers p ⟨true, none, none⟩ h']
      rfl
  · intro h
    simp [handleEvent, h, mapUpdateConnected_keys]
  · intro h
    simp [handleEvent, h, mapInsertNew]
  · simp [handleEvent]
  · by_cases h : mapHas s.peers p = true
    · simp [handleEvent, h, mapHas_mapDelete]
    · have h' : mapHas s.peers p = false := by simpa using h
      simp [handleEvent, h']

/-- Witness for the C5 theorem at a concrete input (fresh registry, connect
event for peer 1, discharging the absent-peer hypothesis). -/
theorem c5_witness :
    (handleEvent ⟨[], []⟩ (.connect 1)).peers = [] ++ [(1, ⟨true, none, none⟩)] :=
  (c5_service_event_state_machine ⟨[], []⟩ 1 0 0 []).1.2.2.1 (by decide)

/-- Claim C7, counterexample to the claim as stated: with `serverPeer` unset,
`Client.disconnect()` changes nothing at all — in particular no
`NotConnected` error is published — so the call *is* silently dropped,
contrary to the claim for the disconnect variants. -/
theorem c7_counterexample :
    clientDisconnect .graceful ⟨⟨[], []⟩, none⟩ ⟨[]⟩ = (⟨⟨[], []⟩, none⟩, ⟨[]⟩)
    ∧ (clientDisconnect .graceful ⟨⟨[], []⟩, none⟩ ⟨[]⟩).1.base.log = [] := by
  decide

/-- Claim C7, amended: with `serverPeer` unset, the client's instance-level
`send` and `sendRawPacket` fail loudly — a `Not connected to server` error is
published and `-1` is returned — but the three disconnect variants are silent
no-ops: they leave the client and transport state entirely unchanged and
publish nothing. -/
theorem c7_amended_not_connected (s : ClientState) (t : Transport)
    (h : s.serverPeer = none) :
    (clientSend s t).2 = -1
    ∧ (clientSend s t).1.base.log
        = s.base.log ++ [.errorEv "Not connected to server"]
    ∧ (clientSendRawPacket s t).2 = -1
    ∧ (clientSendRawPacket s t).1.base.log
        = s.base.log ++ [.errorEv "Not connected to server"]
    ∧ ∀ k, clientDisconnect k s t = (s, t) := by
  refine ⟨?_, ?_, ?_, ?_, ?_⟩ <;>
    simp [clientSend, clientSendRawPacket, clientDisconnect, h, emitError]

/-- Witness for the amended C7 theorem at a concrete input. -/
theorem c7_amended_witness :
    (clientSend ⟨⟨[], []⟩, none⟩ ⟨[]⟩).2 = -1 :=
  (c7_amended_not_connected ⟨⟨[], []⟩, none⟩ ⟨[]⟩ rfl).1

/-- Claim C10: a disconnect event whose peer is not in the registry leaves the
registry completely unchanged, yet the event is still republished to
subscribers — the log grows by exactly the disconnect publication, no error
publication and no drop. -/
theorem c10_late_disconnect_noop (s : BaseState) (p : PeerId) (d : Nat)
    (h : mapHas s.peers p = false) :
    (handleEvent s (.disconnect p d)).peers = s.peers
    ∧ (handleEvent s (.disconnect p d)).log
        = s.log ++ [.disconnectEv (.disconnect p d)] := by
  constructor <;> simp [handleEvent, h]

/-- Witness for the C10 theorem at a concrete input: a late disconnect for
handle 5 while only peer 2 is registered. -/
theorem c10_witness :
    (handleEvent ⟨[(2, ⟨true, none, none⟩)], []⟩ (.disconnect 5 0)).peers
      = [(2, ⟨true, none, none⟩)] :=
  (c10_late_disconnect_noop ⟨[(2, ⟨true, none, none⟩)], []⟩ 5 0 (by decide)).1

/-! Helper lemmas for broadcast, the engine reference count, the poll loop
and the packet builder. -/

theorem baseSend_state_of_ne (s : BaseState) (t : Transport) (p : PeerId)
    (hp : p ≠ 0) : (baseSend s t p).1 = s := by
  unfold baseSend nativeSendPacket
  by_cases hm : p ∈ t.connected <;> simp [hp, hm]

theorem broadcastGo_attempts (t : Transport) (l : List (PeerId × PeerRecord)) :
    ∀ s, (broadcastGo t l s).2 = (l.filter (fun e => e.2.connected)).map Prod.fst := by
  induction l with
  | nil => intro s; rfl
  | cons e rest ih =>
      intro s
      obtain ⟨p, info⟩ := e
      by_cases h : info.connected
      · simp [broadcastGo, h, List.filter_cons, ih]
      · simp [broadcastGo, h, List.filter_cons, ih]

theorem broadcastGo_state (t : Transport) (l : List (PeerId × PeerRecord)) :
    ∀ s, (∀ e ∈ l, e.2.connected = true → e.1 ≠ 0) →
      (broadcastGo t l s).1 = s := by
  induction l with
  | nil => intro s _; rfl
  | cons e rest ih =>
      intro s h
      obtain ⟨p, info⟩ := e
      by_cases hc : info.connected
      · have hp : p ≠ 0 := h (p, info) (by simp) hc
        have hrest : ∀ e ∈ rest, e.2.connected = true → e.1 ≠ 0 := by
          intro e he
          exact h e (by simp [he])
        calc (broadcastGo t ((p, info) :: rest) s).1
            = (broadcastGo t rest (baseSend s t p).1).1 := by
              simp [broadcastGo, hc]
          _ = (baseSend s t p).1 := ih _ hrest
          _ = s := baseSend_state_of_ne s t p hp
      · have hrest : ∀ e ∈ rest, e.2.connected = true → e.1 ≠ 0 := by
          intro e he
          exact h e (by simp [he])
        calc (broadcastGo t ((p, info) :: rest) s).1
            = (broadcastGo t rest s).1 := by simp [broadcastGo, hc]
          _ = s := ih _ hrest

theorem engineStep_count_eq (g : EngineGlobal) (op : EngineOp)
    (h : g.count = g.sessions.length) :
    (engineStep g op).1.count = (engineStep g op).1.sessions.length := by
  cases op with
  | init sid ok =>
      by_cases hs : sid ∈ g.sessions
      · simpa [engineStep, hs] using h
      · by_cases hc : g.count = 0
        · cases ok
          · simpa [engineStep, hs, hc] using h
          · have hstep : (engineStep g (EngineOp.init sid true)).1
                = { count := 1, sessions := sid :: g.sessions } := by
              simp [engineStep, hs, hc]
            rw [hstep]
            show 1 = (sid :: g.sessions).length
            simp only [List.length_cons]
            omega
        · have hstep : (engineStep g (EngineOp.init sid ok)).1
              = { count := g.count + 1, sessions := sid :: g.sessions } := by
            simp [engineStep, hs, hc]
          rw [hstep]
          show g.count + 1 = (sid :: g.sessions).length
          simp only [List.length_cons]
          omega
  | deinit sid =>
      by_cases hs : sid ∈ g.sessions
      · have hl := List.length_erase_of_mem hs
        by_cases hc : g.count = 1
        · have hstep : (engineStep g (EngineOp.deinit sid)).1
              = { count := 0, sessions := g.sessions.erase sid } := by
            simp [engineStep, hs, hc]
          rw [hstep]
          show 0 = (g.sessions.erase sid).length
          rw [hl]
          omega
        · have hstep : (engineStep g (EngineOp.deinit sid)).1
              = { count := g.count - 1, sessions := g.sessions.erase sid } := by
            simp [engineStep, hs, hc]
          rw [hstep]
          show g.count - 1 = (g.sessions.erase sid).length
          rw [hl]
          omega
      · simpa [engineStep, hs] using h

theorem engineStep_deinit_count (g : EngineGlobal) (op : EngineOp)
    (h : g.count = g.sessions.length) :
    countTrueDeinits (engineStep g op).2
      = if g.count ≠ 0 ∧ (engineStep g op).1.count = 0 then 1 else 0 := by
  cases op with
  | init sid ok =>
      by_cases hs : sid ∈ g.sessions
      · have hcalls : (engineStep g (EngineOp.init sid ok)).2 = [] := by
          simp [engineStep, hs]
        have hcount : (engineStep g (EngineOp.init sid ok)).1.count = g.count := by
          simp [engineStep, hs]
        rw [hcalls, hcount, if_neg (by omega)]
        rfl
      · by_cases hc : g.count = 0
        · cases ok
          · have hcalls : (engineStep g (EngineOp.init sid false)).2
                = [EngineCall.trueInit] := by
              simp [engineStep, hs, hc]
            rw [hcalls, if_neg (by omega)]
            rfl
          · have hcalls : (engineStep g (EngineOp.init sid true)).2
                = [EngineCall.trueInit] := by
              simp [engineStep, hs, hc]
            rw [hcalls, if_neg (by omega)]
            rfl
        · have hcalls : (engineStep g (EngineOp.init sid ok)).2 = [] := by
            simp [engineStep, hs, hc]
          have hcount : (engineStep g (EngineOp.init sid ok)).1.count
              = g.count + 1 := by
            simp [engineStep, hs, hc]
          rw [hcalls, hcount, if_neg (by omega)]
          rfl
  | deinit sid =>
      by_cases hs : sid ∈ g.sessions
      · have hpos := List.length_pos_of_mem hs
        by_cases hc : g.count = 1
        · have hcalls : (engineStep g (EngineOp.deinit sid)).2
              = [EngineCall.trueDeinit] := by
            simp [engineStep, hs, hc]
          have hcount : (engineStep g (EngineOp.deinit sid)).1.count = 0 := by
            simp [engineStep, hs, hc]
          rw [hcalls, hcount, if_pos (by omega)]
          rfl
        · have hcalls : (engineStep g (EngineOp.deinit sid)).2 = [] := by
            simp [engineStep, hs, hc]
          have hcount : (engineStep g (EngineOp.deinit sid)).1.count
              = g.count - 1 := by
            simp [engineStep, hs, hc]
          rw [hcalls, hcount, if_neg (by omega)]
          rfl
      · have hcalls : (engineStep g (EngineOp.deinit sid)).2 = [] := by
          simp [engineStep, hs]
        have hcount : (engineStep g (EngineOp.deinit sid)).1.count = g.count := by
          simp [engineStep, hs]
        rw [hcalls, hcount, if_neg (by omega)]
        rfl

theorem engineStep_trueInit_zero (g : EngineGlobal) (op : EngineOp) :
    EngineCall.trueInit ∈ (engineStep g op).2 → g.count = 0 := by
  intro h
  cases op with
  | init sid ok =>
      by_cases hs : sid ∈ g.sessions
      · simp [engineStep, hs] at h
      · by_cases hc : g.count = 0
        · exact hc
        · simp [engineStep, hs, hc] at h
  | deinit sid =>
      by_cases hs : sid ∈ g.sessions
      · by_cases hc : g.count = 1 <;> simp [engineStep, hs, hc] at h
      · simp [engineStep, hs] at h

theorem countTrueDeinits_append (l₁ l₂ : List EngineCall) :
    countTrueDeinits (l₁ ++ l₂) = countTrueDeinits l₁ + countTrueDeinits l₂ := by
  induction l₁ with
  | nil => simp [countTrueDeinits]
  | cons c rest ih =>
      cases c <;> simp [countTrueDeinits, ih] <;> omega

theorem engineRun_deinit_count (g : EngineGlobal) (ops : List EngineOp) :
    g.count = g.sessions.length →
      countTrueDeinits (engineRun g ops).2
        = countZeroReturns g.count (engineCounts g ops) := by
  induction ops generalizing g with
  | nil =>
      intro _
      simp [engineRun, engineCounts, countZeroReturns, countTrueDeinits]
  | cons op rest ih =>
      intro h
      have hstep := engineStep_deinit_count g op h
      have hinv := engineStep_count_eq g op h
      have hrest := ih (engineStep g op).1 hinv
      simp only [engineRun, engineCounts, countZeroReturns,
        countTrueDeinits_append]
      rw [hstep, hrest]

theorem engineStep_trueInit_succ (g : EngineGlobal) (sid : Nat)
    (h : EngineCall.trueInit ∈ (engineStep g (.init sid true)).2) :
    g.count = 0 ∧ (engineStep g (.init sid true)).1.count = 1 := by
  by_cases hs : sid ∈ g.sessions
  · simp [engineStep, hs] at h
  · by_cases hc : g.count = 0
    · exact ⟨hc, by simp [engineStep, hs, hc]⟩
    · simp [engineStep, hs, hc] at h

theorem intervalTrace_head (poll maxI : Nat) (evs : List Bool) (c : Nat) :
    (intervalTrace poll maxI evs c).getD 0 0 = c := by
  cases evs <;> rfl

theorem intervalTrace_length (poll maxI : Nat) (evs : List Bool) :
    ∀ c, (intervalTrace poll maxI evs c).length = evs.length + 1 := by
  induction evs with
  | nil => intro c; rfl
  | cons ev rest ih =>
      intro c
      simp [intervalTrace, ih]

theorem intervalTrace_bounds (poll maxI : Nat) (evs : List Bool)
    (h : poll ≤ maxI) :
    ∀ c, poll ≤ c → c ≤ maxI →
      ∀ x ∈ intervalTrace poll maxI evs c, poll ≤ x ∧ x ≤ maxI := by
  induction evs with
  | nil =>
      intro c hc1 hc2 x hx
      simp [intervalTrace] at hx
      exact hx ▸ ⟨hc1, hc2⟩
  | cons ev rest ih =>
      intro c hc1 hc2 x hx
      simp only [intervalTrace, List.mem_cons] at hx
      rcases hx with rfl | hx
      · exact ⟨hc1, hc2⟩
      · refine ih (nextInterval poll maxI c ev) ?_ ?_ x hx
        · cases ev <;> simp [nextInterval] <;> omega
        · cases ev <;> simp [nextInterval] <;> omega

theorem intervalTrace_getD_succ (poll maxI : Nat) (evs : List Bool) :
    ∀ c i, i < evs.length →
      (intervalTrace poll maxI evs c).getD (i + 1) 0
        = nextInterval poll maxI ((intervalTrace poll maxI evs c).getD i 0)
            (evs.getD i false) := by
  induction evs with
  | nil =>
      intro c i hi
      simp at hi
  | cons ev rest ih =>
      intro c i hi
      cases i with
      | zero =>
          simp only [intervalTrace, List.getD_cons_succ, List.getD_cons_zero]
          exact intervalTrace_head poll maxI rest (nextInterval poll maxI c ev)
      | succ j =>
          simp only [intervalTrace, List.getD_cons_succ]
          exact ih (nextInterval poll maxI c ev) j (by simpa using Nat.lt_of_succ_lt_succ hi)

theorem checkedAdvance_ok (b : RawPacketBuilder) (w : Nat)
    (b' : RawPacketBuilder) (h : checkedAdvance b w = .ok b') :
    b'.capacity = b.capacity
    ∧ b'.offset = b.offset + w
    ∧ b'.offset ≤ b.capacity
    ∧ b'.writes = b.writes ++ [(b.offset, w)] := by
  unfold checkedAdvance at h
  by_cases hb : b.offset + w > b.capacity
  · simp [hb] at h
  · simp [hb] at h
    subst h
    refine ⟨rfl, rfl, ?_, rfl⟩
    show b.offset + w ≤ b.capacity
    omega

theorem checkedAdvance_err (b : RawPacketBuilder) (w : Nat)
    (h : b.offset + w > b.capacity) :
    checkedAdvance b w = .error "RangeError" := by
  simp [checkedAdvance, h]

theorem applyWrite_ok_spec (b : RawPacketBuilder) (op : WriteOp)
    (b' : RawPacketBuilder) (h : applyWrite b op = .ok b') :
    b'.capacity = b.capacity
    ∧ b'.offset = b.offset + writeWidth op
    ∧ b'.offset ≤ b.capacity
    ∧ b'.writes = b.writes ++ [(b.offset, writeWidth op)] := by
  cases op
  case writeString n enc =>
      by_cases he : enc = "utf8"
      · have h' : checkedAdvance b (writeWidth (.writeString n enc)) = .ok b' := by
          simpa [applyWrite, he] using h
        exact checkedAdvance_ok _ _ _ h'
      · simp [applyWrite, he] at h
  all_goals exact checkedAdvance_ok _ _ _ h

theorem applyWrite_overflow (b : RawPacketBuilder) (op : WriteOp)
    (h : b.offset + writeWidth op > b.capacity) :
    ∃ e, applyWrite b op = .error e := by
  cases op
  case writeString n enc =>
      by_cases he : enc = "utf8"
      · exact ⟨"RangeError", by simpa [applyWrite, he] using checkedAdvance_err b _ h⟩
      · exact ⟨"RawPacketBuilder.writeString supports only utf8 encoding",
          by simp [applyWrite, he]⟩
  all_goals exact ⟨"RangeError", checkedAdvance_err b _ h⟩

theorem runBuilder_capacity (ops : List WriteOp) :
    ∀ b b', runBuilder b ops = .ok b' → b'.capacity = b.capacity := by
  induction ops with
  | nil =>
      intro b b' h
      simp [runBuilder] at h
      rw [← h]
  | cons op rest ih =>
      intro b b' h
      unfold runBuilder at h
      cases hap : applyWrite b op with
      | error e => simp [hap] at h
      | ok b1 =>
          simp only [hap] at h
          rw [ih b1 b' h, (applyWrite_ok_spec b op b1 hap).1]

theorem runBuilder_writes_inbounds (ops : List WriteOp) :
    ∀ b b', (∀ sp ∈ b.writes, sp.1 + sp.2 ≤ b.capacity) →
      runBuilder b ops = .ok b' →
      ∀ sp ∈ b'.writes, sp.1 + sp.2 ≤ b'.capacity := by
  induction ops with
  | nil =>
      intro b b' hw h
      simp [runBuilder] at h
      rw [← h]
      exact hw
  | cons op rest ih =>
      intro b b' hw h
      unfold runBuilder at h
      cases hap : applyWrite b op with
      | error e => simp [hap] at h
      | ok b1 =>
          simp only [hap] at h
          obtain ⟨hc, hofs, hle, hwr⟩ := applyWrite_ok_spec b op b1 hap
          refine ih b1 b' ?_ h
          intro sp hsp
          rw [hwr] at hsp
          rcases List.mem_append.mp hsp with hsp | hsp
          · rw [hc]
            exact hw sp hsp
          · simp at hsp
            subst hsp
            show b.offset + writeWidth op ≤ b1.capacity
            omega

/-- Claim C3: the addon's process-wide reference count is correct — the count
always equals the number of sessions holding a slot; a step performs
`enet_deinitialize` exactly once, exactly when it takes a nonzero count to
zero; `enet_initialize` runs only while the count is zero (in the successful
case the step is precisely the 0-to-1 transition); and over any whole run from
the initial state, the number of true teardowns equals the number of times the
count returns to zero. -/
theorem c3_engine_refcount (g : EngineGlobal) (op : EngineOp) (sid : Nat)
    (ops : List EngineOp) (h : g.count = g.sessions.length) :
    (engineStep g op).1.count = (engineStep g op).1.sessions.length
    ∧ (countTrueDeinits (engineStep g op).2
        = if g.count ≠ 0 ∧ (engineStep g op).1.count = 0 then 1 else 0)
    ∧ (EngineCall.trueInit ∈ (engineStep g op).2 → g.count = 0)
    ∧ (EngineCall.trueInit ∈ (engineStep g (.init sid true)).2 →
        g.count = 0 ∧ (engineStep g (.init sid true)).1.count = 1)
    ∧ countTrueDeinits (engineRun engineInitial ops).2
        = countZeroReturns 0 (engineCounts engineInitial ops) := by
  refine ⟨engineStep_count_eq g op h, engineStep_deinit_count g op h,
    engineStep_trueInit_zero g op, engineStep_trueInit_succ g sid,
    engineRun_deinit_count engineInitial ops rfl⟩

/-- Witness for the C3 theorem at a concrete input: one session holding the
last slot releases it, and a two-op run acquires and releases once. -/
theorem c3_engine_refcount_witness :
    countTrueDeinits
        (engineRun engineInitial [EngineOp.init 0 true, EngineOp.deinit 0]).2
      = countZeroReturns 0
          (engineCounts engineInitial [EngineOp.init 0 true, EngineOp.deinit 0]) :=
  (c3_engine_refcount ⟨1, [3]⟩ (.deinit 3) 0 [.init 0 true, .deinit 0] rfl).2.2.2.2

/-- Claim C4, counterexample to the claim as stated: the claim quantifies over
all parameters, but with `pollIntervalMs = 10` and `maxPollIntervalMs = 4` the
very first iteration already uses `currentInterval = 10`, outside the claimed
bound `currentInterval ≤ maxPollIntervalMs = 4`. -/
theorem c4_counterexample :
    pollIntervals 10 4 [false] = [10, 4]
    ∧ 10 ∈ pollIntervals 10 4 [false]
    ∧ ¬ (10 ≤ (4 : Nat)) := by
  decide

/-- Claim C4, amended: provided `pollIntervalMs ≤ maxPollIntervalMs` (true for
the defaults 2/32), `currentInterval` stays within the closed interval at
every iteration; the iteration immediately following an event iteration runs
with `currentInterval = pollIntervalMs`, and the one following an idle
iteration runs with the previous interval doubled and capped at
`maxPollIntervalMs`. -/
theorem c4_amended_interval_invariant (poll maxI : Nat) (evs : List Bool)
    (h : poll ≤ maxI) :
    (∀ c ∈ pollIntervals poll maxI evs, poll ≤ c ∧ c ≤ maxI)
    ∧ (pollIntervals poll maxI evs).length = evs.length + 1
    ∧ (∀ i, i < evs.length → evs.getD i false = true →
        (pollIntervals poll maxI evs).getD (i + 1) 0 = poll)
    ∧ (∀ i, i < evs.length → evs.getD i false = false →
        (pollIntervals poll maxI evs).getD (i + 1) 0
          = min ((pollIntervals poll maxI evs).getD i 0 * 2) maxI) := by
  simp only [pollIntervals]
  refine ⟨intervalTrace_bounds poll maxI evs h poll le_rfl h,
    intervalTrace_length poll maxI evs poll, ?_, ?_⟩
  · intro i hi hev
    rw [intervalTrace_getD_succ poll maxI evs poll i hi, hev]
    rfl
  · intro i hi hev
    rw [intervalTrace_getD_succ poll maxI evs poll i hi, hev]
    rfl

/-- Witness for the amended C4 theorem at a concrete input: the default
parameters 2/32 with one event iteration followed by one idle iteration. -/
theorem c4_amended_witness :
    (pollIntervals 2 32 [true, false]).length = [true, false].length + 1 :=
  (c4_amended_interval_invariant 2 32 [true, false] (by decide)).2.1

/-- Claim C6, counterexample to the claim as stated: two connected registry
entries, with peer 5 no longer connected at the engine level — peer 5's send
attempt fails with status `-1` and the attempt on peer 7 still occurs (no
early abort), but nothing is published on the error channel, so the failure is
not reported as the claim requires. -/
theorem c6_counterexample :
    (baseSend ⟨[(5, ⟨true, none, none⟩), (7, ⟨true, none, none⟩)], []⟩ ⟨[7]⟩ 5).2
      = -1
    ∧ (broadcast ⟨[(5, ⟨true, none, none⟩), (7, ⟨true, none, none⟩)], []⟩ ⟨[7]⟩).2
      = [5, 7]
    ∧ (broadcast ⟨[(5, ⟨true, none, none⟩), (7, ⟨true, none, none⟩)], []⟩ ⟨[7]⟩).1.log
      = [] := by
  decide

/-- Claim C6, amended: a broadcast performs exactly one send attempt per
registry entry with `connected = true`, in registry iteration order,
regardless of the engine state — so a failing peer never prevents the
attempts on later peers.  However, when every attempted handle is valid
(non-null), the broadcast leaves the session state — including the error
log — entirely unchanged: a send failure surfacing as a negative status is
not reported. -/
theorem c6_amended_broadcast (s : BaseState) (t : Transport) :
    (broadcast s t).2 = (s.peers.filter (fun e => e.2.connected)).map Prod.fst
    ∧ ((∀ e ∈ s.peers, e.2.connected = true → e.1 ≠ 0) →
        (broadcast s t).1 = s) :=
  ⟨broadcastGo_attempts t s.peers s, fun h => broadcastGo_state t s.peers s h⟩

/-- Witness for the amended C6 theorem at a concrete input. -/
theorem c6_amended_witness :
    (broadcast ⟨[(5, ⟨true, none, none⟩)], []⟩ ⟨[]⟩).1
      = ⟨[(5, ⟨true, none, none⟩)], []⟩ :=
  (c6_amended_broadcast ⟨[(5, ⟨true, none, none⟩)], []⟩ ⟨[]⟩).2 (by decide)

/-- Claim C8, counterexample to the claim as stated: in the ESM variant of
`setupHost`, a session whose config has `compression = false` still gets
`setCompression(true)` passed to the engine, and no call carrying the config's
actual boolean is made — the toggle does not equal the config value. -/
theorem c8_counterexample :
    HostCall.setCompression true ∈ setupHostESM ⟨false, true, false, false⟩ true
    ∧ HostCall.setCompression false ∉ setupHostESM ⟨false, true, false, false⟩ true := by
  decide

/-- Claim C8, amended: in the CJS variant the compression and checksum toggles
passed to the engine equal the config booleans, and new-packet mode is enabled
exactly when the config requests it; the whole toggle block sits after the
host-creation call and before the ready mark for both the server and the
client sequence.  In the ESM variant, however, compression and checksum are
unconditionally passed as `true`, regardless of the config. -/
theorem c8_amended_setup_toggles (cfg : HostConfig) (isServer : Bool) :
    HostCall.setCompression cfg.compression ∈ setupHostCJS cfg isServer
    ∧ HostCall.setChecksum cfg.checksum ∈ setupHostCJS cfg isServer
    ∧ (HostCall.setNewPacket true isServer ∈ setupHostCJS cfg isServer
        ↔ (cfg.usingNewPacket || cfg.usingNewPacketForServer) = true)
    ∧ (createServerCalls cfg).head? = some HostCall.createHost
    ∧ (createServerCalls cfg).getLast? = some HostCall.markReady
    ∧ (createClientCalls cfg).head? = some HostCall.createHost
    ∧ (createClientCalls cfg).getLast? = some HostCall.markReady
    ∧ (∀ b, HostCall.setCompression b ∈ setupHostESM cfg isServer ↔ b = true)
    ∧ (∀ b, HostCall.setChecksum b ∈ setupHostESM cfg isServer ↔ b = true) := by
  obtain ⟨c1, c2, c3, c4⟩ := cfg
  cases isServer <;> cases c1 <;> cases c2 <;> cases c3 <;> cases c4 <;> decide

/-- Witness for the amended C8 theorem at a concrete input. -/
theorem c8_amended_witness :
    HostCall.setCompression true ∈ setupHostCJS ⟨true, false, false, false⟩ true :=
  (c8_amended_setup_toggles ⟨true, false, false, false⟩ true).1

/-- Claim C9: a `RawPacketBuilder` write whose encoded width would advance the
cursor past the fixed capacity raises an error; a successful write advances
the cursor by exactly the encoded width, stays within the capacity, and
records its span inside the buffer; the capacity never changes — not on a
write, not on `reset`, and not over any whole chain of writes — and every
write a chain ever performs lies within the capacity chosen at
construction. -/
theorem c9_builder_overflow_policy (b : RawPacketBuilder) (op : WriteOp)
    (n : Nat) (ops : List WriteOp) :
    (b.offset + writeWidth op > b.capacity → ∃ e, applyWrite b op = .error e)
    ∧ (∀ b', applyWrite b op = .ok b' →
        b'.capacity = b.capacity
        ∧ b'.offset = b.offset + writeWidth op
        ∧ b'.offset ≤ b.capacity
        ∧ b'.writes = b.writes ++ [(b.offset, writeWidth op)])
    ∧ (builderReset b).capacity = b.capacity
    ∧ (∀ b'', runBuilder (mkBuilder n) ops = .ok b'' →
        b''.capacity = n ∧ ∀ sp ∈ b''.writes, sp.1 + sp.2 ≤ n) := by
  refine ⟨applyWrite_overflow b op, fun b' h => applyWrite_ok_spec b op b' h,
    rfl, ?_⟩
  intro b'' h
  have hc := runBuilder_capacity ops (mkBuilder n) b'' h
  have hw := runBuilder_writes_inbounds ops (mkBuilder n) b''
    (by simp [mkBuilder]) h
  have hcn : b''.capacity = n := by simpa [mkBuilder] using hc
  refine ⟨hcn, fun sp hsp => ?_⟩
  rw [← hcn]
  exact hw sp hsp

/-- Witness for the C9 theorem at a concrete input: a 4-byte write into a
2-byte builder raises. -/
theorem c9_builder_witness :
    ∃ e, applyWrite (mkBuilder 2) (.writeUint32 0 true) = .error e :=
  (c9_builder_overflow_policy (mkBuilder 2) (.writeUint32 0 true) 2 []).1
    (by decide)

end SkyENet
